import Mathlib

set_option autoImplicit false

/-! Shallow embedding of the staking-state transition logic of
`chain-abci/src/staking/tx.rs`: the five operations `StakingTable::node_join`,
`unjail`, `deposit`, `unbond`, `withdraw`, and the helper `add_old_val_addr`,
together with the data model they operate on (StakedState, Validator, the
live validator-address index).  Machine integers (u64 amounts, timestamps,
nonces) are modelled as `Nat`; `Coin` arithmetic is checked against the fixed
supply bound and `Timespec` addition saturates at the u64 maximum.
Addresses (`StakedStateAddress`, `TendermintValidatorAddress`) are opaque
identifiers with decidable equality, modelled as `Nat`; the derivation of a
validator address from a consensus public key is an opaque injection,
modelled as the identity. -/

/-- Modelled from the spec: the fixed supply bound of the `Coin` currency
type (`chain-core` Coin, not under src/); checked coin arithmetic fails
closed beyond this bound. -/
def MAX_COIN : Nat := 10000000000000000000

/-- Modelled from the spec: the maximum of the `Timespec` time domain (u64);
saturating time addition clamps to it and never fails. -/
def TIMESPEC_MAX : Nat := 18446744073709551615

/-- Modelled from the spec: `Timespec::saturating_add` (saturating time
arithmetic: clamp, never fail). -/
def satAdd (a b : Nat) : Nat := min (a + b) TIMESPEC_MAX

/-- Modelled from the spec: checked coin addition (`Coin + Coin` in
`chain-core`), failing closed on overflow of the fixed supply bound. -/
def coinAdd (a b : Nat) : Option Nat :=
  if a + b ≤ MAX_COIN then some (a + b) else none

/-- Modelled from the spec: checked coin subtraction, failing closed on
underflow. -/
def coinSub (a b : Nat) : Option Nat :=
  if b ≤ a then some (a - b) else none

/-- Lookup in an association list keyed by `Nat` (the map operations of the
`BTreeMap` used for `idx_validator_address` and of the staking store). -/
def alookup {α : Type} : List (Nat × α) → Nat → Option α
  | [], _ => none
  | (k, v) :: t, k₀ => if k = k₀ then some v else alookup t k₀

/-- Insert-or-replace in an association list keyed by `Nat`
(`BTreeMap::insert`). -/
def ainsert {α : Type} : List (Nat × α) → Nat → α → List (Nat × α)
  | [], k₀, v₀ => [(k₀, v₀)]
  | (k, v) :: t, k₀, v₀ =>
    if k = k₀ then (k₀, v₀) :: t else (k, v) :: ainsert t k₀ v₀

/-- Remove a key from an association list keyed by `Nat`
(`BTreeMap::remove`, dropping the returned value). -/
def aremove {α : Type} : List (Nat × α) → Nat → List (Nat × α)
  | [], _ => []
  | (k, v) :: t, k₀ => if k = k₀ then t else (k, v) :: aremove t k₀

/-- Council-node public metadata (`CouncilNodeMeta` in chain-core, not under
src/): the consensus public key, from which the Tendermint validator address
is derived, plus opaque informational metadata (security contact,
confidential-init keypackage bytes). -/
structure CouncilNodeMeta where
  consensus_pubkey : Nat
  node_info : Nat
deriving DecidableEq

/-- Modelled from the spec: the Tendermint validator address derived from a
consensus public key (`TendermintValidatorAddress::from`), an opaque
injective derivation, modelled as the identity on the opaque identifier. -/
def validatorAddressOf (pubkey : Nat) : Nat := pubkey

/-- Validator sub-state inside `NodeState::CouncilNode` (chain-core, not
under src/), fields as described by the spec (section 3). -/
structure Validator where
  council_node : CouncilNodeMeta
  jailed_until : Option Nat
  inactive_time : Option Nat
  inactive_block : Option Nat
  used_validator_addresses : List (Nat × Nat)
deriving DecidableEq

/-- Modelled from the spec: `Validator::new` — a fresh validator record with
no jailing, active status and empty address history. -/
def Validator.new (cm : CouncilNodeMeta) : Validator :=
  { council_node := cm
    jailed_until := none
    inactive_time := none
    inactive_block := none
    used_validator_addresses := [] }

/-- Modelled from the spec: `Validator::is_jailed` — jailed iff
`jailed_until` is set. -/
def Validator.is_jailed (v : Validator) : Bool := v.jailed_until.isSome

/-- Modelled from the spec: `Validator::is_active` — the activity flag,
whether the account currently occupies a live slot; `inactive_time` is set
exactly when the validator left active status and is cleared by node_join on
rejoin. -/
def Validator.is_active (v : Validator) : Bool := v.inactive_time.isNone

/-- Modelled from the spec: `Validator::validator_address` — the validator
address derived from the stored consensus public key. -/
def Validator.validator_address (v : Validator) : Nat :=
  validatorAddressOf v.council_node.consensus_pubkey

/-- Modelled from the spec: `Validator::unjail` — clear the jailed status. -/
def Validator.unjail (v : Validator) : Validator := { v with jailed_until := none }

/-- Node state stored in a staked-state record (chain-core `NodeState`):
either a consensus-participating council node or an informational community
node (opaque payload). -/
inductive NodeState where
  | CouncilNode (v : Validator)
  | CommunityNode (blob : Nat)
deriving DecidableEq

/-- The per-address staked-state record (chain-core `StakedState`, not under
src/), fields as described by the spec (section 3). -/
structure StakedState where
  nonce : Nat
  bonded : Nat
  unbonded : Nat
  unbonded_from : Nat
  address : Nat
  node_meta : Option NodeState
deriving DecidableEq

/-- Modelled from the spec: `StakedState::default(addr)` — the lazily
created all-zero record for an address with no stored record. -/
def StakedState.default (addr : Nat) : StakedState :=
  { nonce := 0, bonded := 0, unbonded := 0, unbonded_from := 0
    address := addr, node_meta := none }

/-- Modelled from the spec: `StakedState::is_jailed` — jailed iff the record
has council-node state whose validator is jailed. -/
def StakedState.is_jailed (s : StakedState) : Bool :=
  match s.node_meta with
  | some (.CouncilNode v) => v.is_jailed
  | _ => false

/-- Modelled from the spec: `StakedState::inc_nonce` — increment the
replay-protection counter by exactly one. -/
def StakedState.inc_nonce (s : StakedState) : StakedState :=
  { s with nonce := s.nonce + 1 }

/-- Number of entries in the record's used-validator-address history (0 when
the record has no council-node state); used to state the rotation bound. -/
def StakedState.used_addr_count (s : StakedState) : Nat :=
  match s.node_meta with
  | some (.CouncilNode v) => v.used_validator_addresses.length
  | _ => 0

/-- The staking store (`StoreStaking` heap, consumed through the get/set
contract of spec section 4.1), modelled as an association list from
staked-state address to record. -/
def Heap : Type := List (Nat × StakedState)

/-- The in-block working set `StakingTable` (table.rs, not under src/): the
live index from Tendermint validator address to staked-state address, and
the network-wide minimum bonded amount. -/
structure StakingTable where
  idx_validator_address : List (Nat × Nat)
  minimal_required_staking : Nat
deriving DecidableEq

/-- Modelled from the spec: `StakingTable::get_or_default` — read the record
for an address from the store, defaulting to the all-zero record; never
fails. -/
def get_or_default (heap : Heap) (addr : Nat) : StakedState :=
  match alookup heap addr with
  | some s => s
  | none => StakedState.default addr

/-- Modelled from the spec: `set_staking` — persist the record into the
store keyed by its address (the minimum-stake-dependent side index it also
maintains is outside this core). -/
def set_staking (heap : Heap) (s : StakedState) (_minimal_required_staking : Nat) : Heap :=
  ainsert heap s.address s

/-- Modelled from the spec: `StakingTable::insert_validator` — insert the
new validator's consensus address into the live index, mapped to its
account address (node_join checks non-membership first). -/
def insert_validator (table : StakingTable) (s : StakedState) : StakingTable :=
  match s.node_meta with
  | some (.CouncilNode v) =>
    { table with
      idx_validator_address :=
        ainsert table.idx_validator_address v.validator_address s.address }
  | _ => table

/-- Modelled from the spec: `StakingTable::add_bonded` — checked addition of
the deposited amount to the bonded balance (table.rs, not under src/);
rejects with a currency-overflow error on failure. -/
def add_bonded (amount : Nat) (s : StakedState) : Option StakedState :=
  match coinAdd s.bonded amount with
  | some b => some { s with bonded := b }
  | none => none

/-- Modelled from the spec: `StakingTable::sub_bonded` — checked subtraction
of an amount from the bonded balance (table.rs, not under src/); fails
closed on underflow. -/
def sub_bonded (_block_time : Nat) (_block_height : Nat) (amount : Nat)
    (s : StakedState) : Option StakedState :=
  match coinSub s.bonded amount with
  | some b => some { s with bonded := b }
  | none => none

/-- Transaction payload variant for node metadata (chain-core
`NodeMetadata`). -/
inductive NodeMetadata where
  | CouncilNode (cm : CouncilNodeMeta)
  | CommunityNode (blob : Nat)
deriving DecidableEq

/-- The node-join request transaction
(`chain-core/src/state/validator/nodejoin.rs`). -/
structure NodeJoinRequestTx where
  nonce : Nat
  address : Nat
  attributes : Nat
  node_meta : NodeMetadata
deriving DecidableEq

/-- The unbond transaction (chain-core `UnbondTx`). -/
structure UnbondTx where
  nonce : Nat
  from_staked_account : Nat
  value : Nat
  attributes : Nat
deriving DecidableEq

/-- The unjail transaction (chain-core `UnjailTx`). -/
structure UnjailTx where
  nonce : Nat
  address : Nat
  attributes : Nat
deriving DecidableEq

/-- Outcome of the external enclave-attestation collaborator on the
transaction's keypackage payload (spec section 6): decode failure,
verification failure, or success yielding the attested build version
(`isv_svn`). -/
inductive AttestOutcome where
  | decodeFail
  | verifyFail
  | ok (isv_svn : Nat)
deriving DecidableEq

inductive NodeJoinError where
  | BondedNotEnough
  | KeyPackageDecodeError
  | KeyPackageVerifyError
  | WIPNotValidator
  | IsJailed
  | AlreadyJoined
  | DuplicateValidatorAddress
  | UsedValidatorAddrFull
deriving DecidableEq

inductive UnjailError where
  | JailTimeNotExpired
  | NotJailed
deriving DecidableEq

inductive DepositError where
  | IsJailed
  | CoinError
deriving DecidableEq

inductive UnbondError where
  | IsJailed
  | ZeroValue
  | CoinError
deriving DecidableEq

inductive WithdrawError where
  | IsJailed
  | InUnbondingPeriod
  | UnbondedSanityCheck (actual declared : Nat)
deriving DecidableEq

inductive PublicTxError where
  | IncorrectNonce
  | NodeJoin (e : NodeJoinError)
  | Unjail (e : UnjailError)
  | Unbond (e : UnbondError)
deriving DecidableEq

/-- The helper `add_old_val_addr` (tx.rs lines 256-282).  Partitions the
used-address list by expiry (`ts.saturating_add(max_evidence_age) <=
block_time`); if the live count (`used.len() - out_of_date.len()`) is below
the bound, returns the retained-plus-appended list together with the expired
addresses, otherwise `none`.  The Rust mutates `used` in place; here the new
list is returned alongside the out-of-date addresses. -/
def add_old_val_addr (used : List (Nat × Nat)) (block_time : Nat)
    (old_val_addr : Nat) (max_bound : Nat) (max_evidence_age : Nat) :
    Option (List (Nat × Nat) × List Nat) :=
  let out_of_date :=
    (used.filter (fun p => decide (satAdd p.2 max_evidence_age ≤ block_time))).map Prod.fst
  if used.length - out_of_date.length < max_bound then
    some
      (used.filter (fun p => decide (block_time < satAdd p.2 max_evidence_age))
         ++ [(old_val_addr, block_time)],
       out_of_date)
  else
    none

/-- The bound on the used-validator-address history (tx.rs line 20). -/
def MAX_USED_VALIDATOR_ADDR : Nat := 10

/-- The body of `node_join` after the nonce, bond and attestation checks
(tx.rs lines 59-124): extract the validator address from the transaction's
node metadata, then branch on the stored node state (jailed / active /
inactive rejoin with optional address rotation / fresh insert), increment
the nonce and persist.  Separated out because the remainder of `node_join`
does not depend on the attested version. -/
def node_join_core (table : StakingTable) (heap : Heap)
    (block_time : Nat) (max_evidence_age : Nat) (tx : NodeJoinRequestTx)
    (staking : StakedState) : Except PublicTxError Unit × StakingTable × Heap :=
  match tx.node_meta with
  | .CommunityNode _ => (.error (.NodeJoin .WIPNotValidator), table, heap)
  | .CouncilNode cm =>
    match staking.node_meta with
    | some (.CouncilNode val) =>
      if val.is_jailed then
        (.error (.NodeJoin .IsJailed), table, heap)
      else if val.is_active then
        (.error (.NodeJoin .AlreadyJoined), table, heap)
      else if val.validator_address ≠ validatorAddressOf cm.consensus_pubkey then
        if (alookup table.idx_validator_address (validatorAddressOf cm.consensus_pubkey)).isSome then
          (.error (.NodeJoin .DuplicateValidatorAddress), table, heap)
        else
          match add_old_val_addr val.used_validator_addresses block_time
              val.validator_address MAX_USED_VALIDATOR_ADDR max_evidence_age with
          | none => (.error (.NodeJoin .UsedValidatorAddrFull), table, heap)
          | some (used, out_of_date) =>
            (.ok (),
             { table with
               idx_validator_address :=
                 ainsert (out_of_date.foldl aremove table.idx_validator_address)
                   (validatorAddressOf cm.consensus_pubkey) tx.address },
             set_staking heap
               (StakedState.inc_nonce
                 { staking with
                   node_meta := some (.CouncilNode
                     { val with
                       used_validator_addresses := used
                       council_node := cm
                       inactive_time := none
                       inactive_block := none }) })
               table.minimal_required_staking)
      else
        (.ok (), table,
         set_staking heap
           (StakedState.inc_nonce
             { staking with
               node_meta := some (.CouncilNode
                 { val with
                   council_node := cm
                   inactive_time := none
                   inactive_block := none }) })
           table.minimal_required_staking)
    | _ =>
      if (alookup table.idx_validator_address (validatorAddressOf cm.consensus_pubkey)).isSome then
        (.error (.NodeJoin .DuplicateValidatorAddress), table, heap)
      else
        (.ok (),
         insert_validator table
           { staking with node_meta := some (.CouncilNode (Validator.new cm)) },
         set_staking heap
           (StakedState.inc_nonce
             { staking with node_meta := some (.CouncilNode (Validator.new cm)) })
           table.minimal_required_staking)

/-- `StakingTable::node_join` (tx.rs lines 24-130).  The enclave attestation
collaborator's outcome on this transaction's keypackage payload is passed in
as `attest` (it is an external collaborator per spec sections 1 and 6; the
mock-enclave build fixes it to `ok 0`). -/
def node_join (table : StakingTable) (heap : Heap) (block_time : Nat)
    (max_evidence_age : Nat) (recent_isv_svn : Nat) (attest : AttestOutcome)
    (tx : NodeJoinRequestTx) : Except PublicTxError Nat × StakingTable × Heap :=
  let staking := get_or_default heap tx.address
    if tx.nonce ≠ staking.nonce then
      (.error .IncorrectNonce, table, heap)
    else if staking.bonded < table.minimal_required_staking then
      (.error (.NodeJoin .BondedNotEnough), table, heap)
    else
      match attest with
      | .decodeFail => (.error (.NodeJoin .KeyPackageDecodeError), table, heap)
      | .verifyFail => (.error (.NodeJoin .KeyPackageVerifyError), table, heap)
      | .ok isv_svn =>
        match node_join_core table heap block_time max_evidence_age tx staking with
        | (.ok _, t, hp) =>
          (.ok (if isv_svn > recent_isv_svn then isv_svn else recent_isv_svn), t, hp)
        | (.error e, t, hp) => (.error e, t, hp)

/-- `StakingTable::unjail` (tx.rs lines 133-163). -/
def unjail (table : StakingTable) (heap : Heap) (block_time : Nat)
    (tx : UnjailTx) : Except PublicTxError Unit × StakingTable × Heap :=
  let staking := get_or_default heap tx.address
    if tx.nonce ≠ staking.nonce then
      (.error .IncorrectNonce, table, heap)
    else
      match staking.node_meta with
      | some (.CouncilNode val) =>
        match val.jailed_until with
        | some jailed_until =>
          if block_time ≥ jailed_until then
            (.ok (), table,
             set_staking heap
               (StakedState.inc_nonce
                 { staking with node_meta := some (.CouncilNode val.unjail) })
               table.minimal_required_staking)
          else
            (.error (.Unjail .JailTimeNotExpired), table, heap)
        | none => (.error (.Unjail .NotJailed), table, heap)
      | _ => (.error (.Unjail .NotJailed), table, heap)

/-- `StakingTable::deposit` (tx.rs lines 167-184). -/
def deposit (table : StakingTable) (heap : Heap) (addr : Nat)
    (amount : Nat) : Except DepositError Unit × StakingTable × Heap :=
  let staking := get_or_default heap addr
    if staking.is_jailed then
      (.error .IsJailed, table, heap)
    else
      match add_bonded amount staking with
      | none => (.error .CoinError, table, heap)
      | some staking1 =>
        (.ok (), table, set_staking heap staking1 table.minimal_required_staking)

/-- `StakingTable::unbond` (tx.rs lines 187-224); `fee` is the
externally-computed fee as a coin amount (`fee.to_coin()`). -/
def unbond (table : StakingTable) (heap : Heap) (unbonding_period : Nat)
    (block_time : Nat) (block_height : Nat) (tx : UnbondTx) (fee : Nat) :
    Except PublicTxError Nat × StakingTable × Heap :=
  let staking := get_or_default heap tx.from_staked_account
    if tx.nonce ≠ staking.nonce then
      (.error .IncorrectNonce, table, heap)
    else if staking.is_jailed then
      (.error (.Unbond .IsJailed), table, heap)
    else if tx.value = 0 then
      (.error (.Unbond .ZeroValue), table, heap)
    else
      match coinAdd staking.unbonded tx.value with
      | none => (.error (.Unbond .CoinError), table, heap)
      | some unbonded =>
        match coinAdd tx.value fee with
        | none => (.error (.Unbond .CoinError), table, heap)
        | some total =>
          match sub_bonded block_time block_height total staking with
          | none => (.error (.Unbond .CoinError), table, heap)
          | some staking1 =>
            (.ok (satAdd block_time unbonding_period), table,
             set_staking heap
               (StakedState.inc_nonce
                 { staking1 with
                   unbonded := unbonded
                   unbonded_from := satAdd block_time unbonding_period })
               table.minimal_required_staking)

/-- `StakingTable::withdraw` (tx.rs lines 228-251). -/
def withdraw (table : StakingTable) (heap : Heap) (block_time : Nat)
    (addr : Nat) (amount : Nat) : Except WithdrawError Unit × StakingTable × Heap :=
  let staking := get_or_default heap addr
    if staking.is_jailed then
      (.error .IsJailed, table, heap)
    else if block_time < staking.unbonded_from then
      (.error .InUnbondingPeriod, table, heap)
    else if staking.unbonded ≠ amount then
      (.error (.UnbondedSanityCheck staking.unbonded amount), table, heap)
    else
      (.ok (), table,
       set_staking heap
         (StakedState.inc_nonce { staking with unbonded := 0 })
         table.minimal_required_staking)

/-! Helper lemmas about the association-list map operations and the
address-rotation helper. -/

theorem alookup_ainsert_self {α : Type} (l : List (Nat × α)) (k : Nat) (v : α) :
    alookup (ainsert l k v) k = some v := by
  induction l with
  | nil => simp [ainsert, alookup]
  | cons p t ih =>
    obtain ⟨k₁, v₁⟩ := p
    by_cases h : k₁ = k <;> simp [ainsert, alookup, h, ih]

theorem alookup_ainsert_ne {α : Type} (l : List (Nat × α)) (k k' : Nat) (v : α)
    (hne : k' ≠ k) : alookup (ainsert l k v) k' = alookup l k' := by
  have hkk : k ≠ k' := fun h => hne h.symm
  induction l with
  | nil => simp [ainsert, alookup, hkk]
  | cons p t ih =>
    obtain ⟨k₁, v₁⟩ := p
    by_cases h : k₁ = k
    · subst h
      simp [ainsert, alookup, hkk]
    · simp [ainsert, alookup, h, ih]

theorem filter_compl_length {α : Type} (p q : α → Bool)
    (hpq : ∀ a, q a = !p a) (l : List α) :
    (l.filter q).length + (l.filter p).length = l.length := by
  induction l with
  | nil => rfl
  | cons a t ih =>
    cases h : p a <;> simp [List.filter_cons, h, hpq, ih] <;> omega

theorem live_expired_length (used : List (Nat × Nat)) (bt age : Nat) :
    (used.filter (fun p => decide (bt < satAdd p.2 age))).length
      + (used.filter (fun p => decide (satAdd p.2 age ≤ bt))).length
      = used.length := by
  refine filter_compl_length _ _ (fun a => ?_) used
  by_cases h : satAdd a.2 age ≤ bt
  · simp [h, Nat.not_lt.2 h]
  · simp [h, Nat.lt_of_not_le h]

/-- The rotation helper in closed form: it succeeds exactly when the number
of live (unexpired) entries is below the bound, in which case it returns the
live entries with the old address appended, together with the expired
addresses. -/
theorem add_old_val_addr_eq (used : List (Nat × Nat)) (bt old mb age : Nat) :
    add_old_val_addr used bt old mb age =
      if (used.filter (fun p => decide (bt < satAdd p.2 age))).length < mb then
        some (used.filter (fun p => decide (bt < satAdd p.2 age)) ++ [(old, bt)],
              (used.filter (fun p => decide (satAdd p.2 age ≤ bt))).map Prod.fst)
      else none := by
  have hpart := live_expired_length used bt age
  unfold add_old_val_addr
  simp only [List.length_map]
  by_cases h : (used.filter (fun p => decide (bt < satAdd p.2 age))).length < mb
  · rw [if_pos (by omega), if_pos h]
  · rw [if_neg (by omega), if_neg h]

/-- Case analysis of the node_join body after the version computation:
either it rejects and leaves table and store untouched, or it succeeds and
persists exactly one record for the same address with the nonce bumped by
one and the used-address history still within the bound. -/
theorem node_join_core_cases (t : StakingTable) (h : Heap) (bt age : Nat)
    (tx : NodeJoinRequestTx) (s : StakedState) :
    ((∃ e, (node_join_core t h bt age tx s).1 = .error e)
       ∧ (node_join_core t h bt age tx s).2 = (t, h))
    ∨ (∃ s2, (node_join_core t h bt age tx s).1 = .ok ()
       ∧ (node_join_core t h bt age tx s).2.2 = set_staking h s2 t.minimal_required_staking
       ∧ s2.address = s.address ∧ s2.nonce = s.nonce + 1
       ∧ (s.used_addr_count ≤ 10 → s2.used_addr_count ≤ 10)) := by
  rcases htx : tx.node_meta with cm | blob
  case CommunityNode =>
    simp only [node_join_core, htx]
    exact Or.inl ⟨⟨_, rfl⟩, by first | rfl | trivial⟩
  rcases hs : s.node_meta with _ | (val | blob2)
  case CouncilNode.none =>
    simp only [node_join_core, htx, hs]
    by_cases hdup : (alookup t.idx_validator_address (validatorAddressOf cm.consensus_pubkey)).isSome
    · simp only [hdup, if_true]
      exact Or.inl ⟨⟨_, rfl⟩, by first | rfl | trivial⟩
    · simp only [hdup, if_false]
      refine Or.inr ⟨_, by first | rfl | trivial, rfl, rfl, rfl, ?_⟩
      intro _
      simp [StakedState.used_addr_count, StakedState.inc_nonce, Validator.new]
  case CouncilNode.some.CommunityNode =>
    simp only [node_join_core, htx, hs]
    by_cases hdup : (alookup t.idx_validator_address (validatorAddressOf cm.consensus_pubkey)).isSome
    · simp only [hdup, if_true]
      exact Or.inl ⟨⟨_, rfl⟩, by first | rfl | trivial⟩
    · simp only [hdup, if_false]
      refine Or.inr ⟨_, by first | rfl | trivial, rfl, rfl, rfl, ?_⟩
      intro _
      simp [StakedState.used_addr_count, StakedState.inc_nonce, Validator.new]
  case CouncilNode.some.CouncilNode =>
    simp only [node_join_core, htx, hs]
    by_cases hj : val.is_jailed
    · simp only [hj, if_true]
      exact Or.inl ⟨⟨_, rfl⟩, by first | rfl | trivial⟩
    · simp only [hj, if_false]
      by_cases ha : val.is_active
      · simp only [ha, if_true]
        exact Or.inl ⟨⟨_, rfl⟩, by first | rfl | trivial⟩
      · simp only [ha, if_false]
        by_cases hd : val.validator_address ≠ validatorAddressOf cm.consensus_pubkey
        · simp only [if_pos hd]
          by_cases hdup : (alookup t.idx_validator_address (validatorAddressOf cm.consensus_pubkey)).isSome
          · simp only [hdup, if_true]
            exact Or.inl ⟨⟨_, rfl⟩, by first | rfl | trivial⟩
          · simp only [hdup, if_false]
            rcases hr : add_old_val_addr val.used_validator_addresses bt
                val.validator_address MAX_USED_VALIDATOR_ADDR age with _ | ⟨used2, out⟩
            · simp only [hr]
              exact Or.inl ⟨⟨_, rfl⟩, by first | rfl | trivial⟩
            · simp only [hr]
              refine Or.inr ⟨_, by first | rfl | trivial, rfl, rfl, rfl, ?_⟩
              intro _
              rw [add_old_val_addr_eq] at hr
              split at hr
              · rename_i hlive
                simp only [Option.some.injEq, Prod.mk.injEq] at hr
                simp [StakedState.used_addr_count, StakedState.inc_nonce, ← hr.1]
                unfold MAX_USED_VALIDATOR_ADDR at hlive
                omega
              · exact absurd hr (by simp)
        · simp only [if_neg hd]
          refine Or.inr ⟨_, by first | rfl | trivial, rfl, rfl, rfl, ?_⟩
          intro hle
          simp only [StakedState.used_addr_count, hs] at hle
          simp [StakedState.used_addr_count, StakedState.inc_nonce]
          exact hle

/-- Case analysis of node_join: either it rejects and leaves table and store
untouched, or it succeeds and persists exactly one record for the same
address with the nonce bumped by one and the history within the bound. -/
theorem node_join_cases (t : StakingTable) (h : Heap) (bt age recent : Nat)
    (attest : AttestOutcome) (tx : NodeJoinRequestTx) :
    ((∃ e, (node_join t h bt age recent attest tx).1 = .error e)
       ∧ (node_join t h bt age recent attest tx).2 = (t, h))
    ∨ (∃ s2, (∃ r, (node_join t h bt age recent attest tx).1 = .ok r)
       ∧ (node_join t h bt age recent attest tx).2.2
           = set_staking h s2 t.minimal_required_staking
       ∧ s2.address = (get_or_default h tx.address).address
       ∧ s2.nonce = (get_or_default h tx.address).nonce + 1
       ∧ ((get_or_default h tx.address).used_addr_count ≤ 10 →
            s2.used_addr_count ≤ 10)) := by
  simp only [node_join]
  by_cases h1 : tx.nonce ≠ (get_or_default h tx.address).nonce
  · simp only [if_pos h1]
    exact Or.inl ⟨⟨_, rfl⟩, by first | rfl | trivial⟩
  · simp only [if_neg h1]
    by_cases h2 : (get_or_default h tx.address).bonded < t.minimal_required_staking
    · simp only [if_pos h2]
      exact Or.inl ⟨⟨_, rfl⟩, by first | rfl | trivial⟩
    · simp only [if_neg h2]
      cases attest with
      | decodeFail => exact Or.inl ⟨⟨_, rfl⟩, by first | rfl | trivial⟩
      | verifyFail => exact Or.inl ⟨⟨_, rfl⟩, by first | rfl | trivial⟩
      | ok v =>
        have hcases := node_join_core_cases t h bt age tx (get_or_default h tx.address)
        rcases hc : node_join_core t h bt age tx (get_or_default h tx.address) with ⟨r, t2, h2⟩
        rw [hc] at hcases
        cases r with
        | error e =>
          simp only [hc]
          rcases hcases with ⟨⟨e1, he⟩, hst⟩ | ⟨s2, hok, _, _, _, _⟩
          · exact Or.inl ⟨⟨_, rfl⟩, hst⟩
          · exact absurd hok (by simp)
        | ok u =>
          simp only [hc]
          rcases hcases with ⟨⟨e1, he⟩, hst⟩ | ⟨s2, hok, hh, haddr, hnonce, hused⟩
          · exact absurd he (by simp)
          · exact Or.inr ⟨s2, ⟨_, rfl⟩, hh, haddr, hnonce, hused⟩

/-- Case analysis of unjail. -/
theorem unjail_cases (t : StakingTable) (h : Heap) (bt : Nat) (tx : UnjailTx) :
    ((∃ e, (unjail t h bt tx).1 = .error e) ∧ (unjail t h bt tx).2 = (t, h))
    ∨ ((unjail t h bt tx).1 = .ok ()
       ∧ (unjail t h bt tx).2.1 = t
       ∧ ∃ val, (get_or_default h tx.address).node_meta = some (.CouncilNode val)
       ∧ (unjail t h bt tx).2.2
           = set_staking h
               (StakedState.inc_nonce
                 { get_or_default h tx.address with
                   node_meta := some (.CouncilNode val.unjail) })
               t.minimal_required_staking) := by
  simp only [unjail]
  by_cases h1 : tx.nonce ≠ (get_or_default h tx.address).nonce
  · simp only [if_pos h1]
    exact Or.inl ⟨⟨_, rfl⟩, by first | rfl | trivial⟩
  · simp only [if_neg h1]
    rcases hs : (get_or_default h tx.address).node_meta with _ | (val | blob)
    · simp only [hs]
      exact Or.inl ⟨⟨_, rfl⟩, by first | rfl | trivial⟩
    · simp only [hs]
      rcases hju : val.jailed_until with _ | ju
      · simp only [hju]
        exact Or.inl ⟨⟨_, rfl⟩, by first | rfl | trivial⟩
      · simp only [hju]
        by_cases hbt : bt ≥ ju
        · simp only [if_pos hbt]
          refine Or.inr ⟨by first | rfl | trivial, by first | rfl | trivial, val,
            by first | rfl | trivial | exact hs, by first | rfl | trivial⟩
        · simp only [if_neg hbt]
          exact Or.inl ⟨⟨_, rfl⟩, by first | rfl | trivial⟩
    · simp only [hs]
      exact Or.inl ⟨⟨_, rfl⟩, by first | rfl | trivial⟩

/-- Case analysis of deposit. -/
theorem deposit_cases (t : StakingTable) (h : Heap) (addr amount : Nat) :
    ((∃ e, (deposit t h addr amount).1 = .error e)
       ∧ (deposit t h addr amount).2 = (t, h))
    ∨ ((deposit t h addr amount).1 = .ok ()
       ∧ (deposit t h addr amount).2.1 = t
       ∧ (get_or_default h addr).bonded + amount ≤ MAX_COIN
       ∧ (deposit t h addr amount).2.2
           = set_staking h
               { get_or_default h addr with
                 bonded := (get_or_default h addr).bonded + amount }
               t.minimal_required_staking) := by
  simp only [deposit]
  by_cases hj : (get_or_default h addr).is_jailed
  · simp only [if_pos hj]
    exact Or.inl ⟨⟨_, rfl⟩, by first | rfl | trivial⟩
  · simp only [if_neg hj]
    rcases hb : add_bonded amount (get_or_default h addr) with _ | s1
    · simp only [hb]
      exact Or.inl ⟨⟨_, rfl⟩, by first | rfl | trivial⟩
    · simp only [hb]
      unfold add_bonded at hb
      rcases hca : coinAdd (get_or_default h addr).bonded amount with _ | b
      · rw [hca] at hb
        exact absurd hb (by simp)
      · rw [hca] at hb
        simp only [Option.some.injEq] at hb
        unfold coinAdd at hca
        split at hca
        · rename_i hle
          simp only [Option.some.injEq] at hca
          refine Or.inr ⟨by first | rfl | trivial, by first | rfl | trivial, hle, ?_⟩
          rw [← hb, ← hca]
        · exact absurd hca (by simp)

/-- Case analysis of unbond. -/
theorem unbond_cases (t : StakingTable) (h : Heap) (p bt bh : Nat)
    (tx : UnbondTx) (fee : Nat) :
    ((∃ e, (unbond t h p bt bh tx fee).1 = .error e)
       ∧ (unbond t h p bt bh tx fee).2 = (t, h))
    ∨ (∃ s2, (unbond t h p bt bh tx fee).1 = .ok (satAdd bt p)
       ∧ (unbond t h p bt bh tx fee).2.1 = t
       ∧ (unbond t h p bt bh tx fee).2.2 = set_staking h s2 t.minimal_required_staking
       ∧ s2.address = (get_or_default h tx.from_staked_account).address
       ∧ s2.nonce = (get_or_default h tx.from_staked_account).nonce + 1) := by
  simp only [unbond]
  by_cases h1 : tx.nonce ≠ (get_or_default h tx.from_staked_account).nonce
  · simp only [if_pos h1]
    exact Or.inl ⟨⟨_, rfl⟩, by first | rfl | trivial⟩
  · simp only [if_neg h1]
    by_cases hj : (get_or_default h tx.from_staked_account).is_jailed
    · simp only [if_pos hj]
      exact Or.inl ⟨⟨_, rfl⟩, by first | rfl | trivial⟩
    · simp only [if_neg hj]
      by_cases hz : tx.value = 0
      · simp only [if_pos hz]
        exact Or.inl ⟨⟨_, rfl⟩, by first | rfl | trivial⟩
      · simp only [if_neg hz]
        rcases ha : coinAdd (get_or_default h tx.from_staked_account).unbonded tx.value with _ | ub
        · simp only [ha]
          exact Or.inl ⟨⟨_, rfl⟩, by first | rfl | trivial⟩
        · simp only [ha]
          rcases hb : coinAdd tx.value fee with _ | total
          · simp only [hb]
            exact Or.inl ⟨⟨_, rfl⟩, by first | rfl | trivial⟩
          · simp only [hb]
            rcases hc : sub_bonded bt bh total (get_or_default h tx.from_staked_account) with _ | s1
            · simp only [hc]
              exact Or.inl ⟨⟨_, rfl⟩, by first | rfl | trivial⟩
            · simp only [hc]
              unfold sub_bonded at hc
              rcases hcs : coinSub (get_or_default h tx.from_staked_account).bonded total with _ | b
              · rw [hcs] at hc
                exact absurd hc (by simp)
              · rw [hcs] at hc
                simp only [Option.some.injEq] at hc
                refine Or.inr ⟨_, by first | rfl | trivial, by first | rfl | trivial, rfl, ?_, ?_⟩
                · simp [← hc, StakedState.inc_nonce]
                · simp [← hc, StakedState.inc_nonce]

/-- Case analysis of withdraw. -/
theorem withdraw_cases (t : StakingTable) (h : Heap) (bt addr amount : Nat) :
    ((∃ e, (withdraw t h bt addr amount).1 = .error e)
       ∧ (withdraw t h bt addr amount).2 = (t, h))
    ∨ ((withdraw t h bt addr amount).1 = .ok ()
       ∧ (withdraw t h bt addr amount).2.1 = t
       ∧ (get_or_default h addr).is_jailed = false
       ∧ (get_or_default h addr).unbonded_from ≤ bt
       ∧ (get_or_default h addr).unbonded = amount
       ∧ (withdraw t h bt addr amount).2.2
           = set_staking h
               (StakedState.inc_nonce { get_or_default h addr with unbonded := 0 })
               t.minimal_required_staking) := by
  simp only [withdraw]
  by_cases hj : (get_or_default h addr).is_jailed
  · simp only [if_pos hj]
    exact Or.inl ⟨⟨_, rfl⟩, by first | rfl | trivial⟩
  · simp only [if_neg hj]
    by_cases hbt : bt < (get_or_default h addr).unbonded_from
    · simp only [if_pos hbt]
      exact Or.inl ⟨⟨_, rfl⟩, by first | rfl | trivial⟩
    · simp only [if_neg hbt]
      by_cases hu : (get_or_default h addr).unbonded ≠ amount
      · simp only [if_pos hu]
        exact Or.inl ⟨⟨_, rfl⟩, by first | rfl | trivial⟩
      · simp only [if_neg hu]
        refine Or.inr ⟨by first | rfl | trivial, by first | rfl | trivial,
          by simp [hj], by omega, by simpa using hu, by first | rfl | trivial⟩

/-- C2: for every one of the five operations (node_join, unjail, deposit,
unbond, withdraw) and every input state, a rejection has zero observable
side effects: the table and the staking store — hence every stored record,
its nonce and its balances — are exactly as before the call. -/
theorem c2_rejection_no_side_effects :
    (∀ t h bt age recent attest tx e,
       (node_join t h bt age recent attest tx).1 = .error e →
       (node_join t h bt age recent attest tx).2 = (t, h))
    ∧ (∀ t h bt tx e,
       (unjail t h bt tx).1 = .error e → (unjail t h bt tx).2 = (t, h))
    ∧ (∀ t h addr amount e,
       (deposit t h addr amount).1 = .error e → (deposit t h addr amount).2 = (t, h))
    ∧ (∀ t h p bt bh tx fee e,
       (unbond t h p bt bh tx fee).1 = .error e → (unbond t h p bt bh tx fee).2 = (t, h))
    ∧ (∀ t h bt addr amount e,
       (withdraw t h bt addr amount).1 = .error e →
       (withdraw t h bt addr amount).2 = (t, h)) := by
  refine ⟨?_, ?_, ?_, ?_, ?_⟩
  · intro t h bt age recent attest tx e he
    rcases node_join_cases t h bt age recent attest tx with ⟨_, hst⟩ | ⟨s2, ⟨r, hok⟩, _⟩
    · exact hst
    · rw [hok] at he
      cases he
  · intro t h bt tx e he
    rcases unjail_cases t h bt tx with ⟨_, hst⟩ | ⟨hok, _⟩
    · exact hst
    · rw [hok] at he
      cases he
  · intro t h addr amount e he
    rcases deposit_cases t h addr amount with ⟨_, hst⟩ | ⟨hok, _⟩
    · exact hst
    · rw [hok] at he
      cases he
  · intro t h p bt bh tx fee e he
    rcases unbond_cases t h p bt bh tx fee with ⟨_, hst⟩ | ⟨s2, hok, _⟩
    · exact hst
    · rw [hok] at he
      cases he
  · intro t h bt addr amount e he
    rcases withdraw_cases t h bt addr amount with ⟨_, hst⟩ | ⟨hok, _⟩
    · exact hst
    · rw [hok] at he
      cases he

theorem c2_witness :
    (node_join ⟨[], 1⟩ [] 0 0 0 .decodeFail ⟨0, 0, 0, .CouncilNode ⟨1, 0⟩⟩).2 = (⟨[], 1⟩, [])
    ∧ (unjail ⟨[], 0⟩ [] 0 ⟨0, 0, 0⟩).2 = (⟨[], 0⟩, [])
    ∧ (deposit ⟨[], 0⟩ [] 0 (MAX_COIN + 1)).2 = (⟨[], 0⟩, [])
    ∧ (unbond ⟨[], 0⟩ [] 0 0 0 ⟨0, 0, 0, 0⟩ 0).2 = (⟨[], 0⟩, [])
    ∧ (withdraw ⟨[], 0⟩ [] 0 0 5).2 = (⟨[], 0⟩, []) :=
  ⟨c2_rejection_no_side_effects.1 ⟨[], 1⟩ [] 0 0 0 .decodeFail ⟨0, 0, 0, .CouncilNode ⟨1, 0⟩⟩
     (.NodeJoin .BondedNotEnough) rfl,
   c2_rejection_no_side_effects.2.1 ⟨[], 0⟩ [] 0 ⟨0, 0, 0⟩ (.Unjail .NotJailed) rfl,
   c2_rejection_no_side_effects.2.2.1 ⟨[], 0⟩ [] 0 (MAX_COIN + 1) .CoinError rfl,
   c2_rejection_no_side_effects.2.2.2.1 ⟨[], 0⟩ [] 0 0 0 ⟨0, 0, 0, 0⟩ 0
     (.Unbond .ZeroValue) rfl,
   c2_rejection_no_side_effects.2.2.2.2 ⟨[], 0⟩ [] 0 0 5 (.UnbondedSanityCheck 0 5) rfl⟩

/-- C3: node_join, unjail and unbond reject with IncorrectNonce when the
declared nonce differs from the record's nonce; on success the record's
nonce is exactly one greater; on rejection it is unchanged. -/
theorem c3_nonce_policy :
    (∀ t h bt age recent attest (tx : NodeJoinRequestTx),
       tx.nonce ≠ (get_or_default h tx.address).nonce →
       (node_join t h bt age recent attest tx).1 = .error .IncorrectNonce)
    ∧ (∀ t h bt (tx : UnjailTx),
       tx.nonce ≠ (get_or_default h tx.address).nonce →
       (unjail t h bt tx).1 = .error .IncorrectNonce)
    ∧ (∀ t h p bt bh (tx : UnbondTx) fee,
       tx.nonce ≠ (get_or_default h tx.from_staked_account).nonce →
       (unbond t h p bt bh tx fee).1 = .error .IncorrectNonce)
    ∧ (∀ t h bt age recent attest (tx : NodeJoinRequestTx),
       (get_or_default h tx.address).address = tx.address →
       (∃ r, (node_join t h bt age recent attest tx).1 = .ok r) →
       (get_or_default (node_join t h bt age recent attest tx).2.2 tx.address).nonce
         = (get_or_default h tx.address).nonce + 1)
    ∧ (∀ t h bt (tx : UnjailTx),
       (get_or_default h tx.address).address = tx.address →
       (unjail t h bt tx).1 = .ok () →
       (get_or_default (unjail t h bt tx).2.2 tx.address).nonce
         = (get_or_default h tx.address).nonce + 1)
    ∧ (∀ t h p bt bh (tx : UnbondTx) fee,
       (get_or_default h tx.from_staked_account).address = tx.from_staked_account →
       (∃ r, (unbond t h p bt bh tx fee).1 = .ok r) →
       (get_or_default (unbond t h p bt bh tx fee).2.2 tx.from_staked_account).nonce
         = (get_or_default h tx.from_staked_account).nonce + 1)
    ∧ (∀ t h bt age recent attest (tx : NodeJoinRequestTx) e,
       (node_join t h bt age recent attest tx).1 = .error e →
       (get_or_default (node_join t h bt age recent attest tx).2.2 tx.address).nonce
         = (get_or_default h tx.address).nonce)
    ∧ (∀ t h bt (tx : UnjailTx) e,
       (unjail t h bt tx).1 = .error e →
       (get_or_default (unjail t h bt tx).2.2 tx.address).nonce
         = (get_or_default h tx.address).nonce)
    ∧ (∀ t h p bt bh (tx : UnbondTx) fee e,
       (unbond t h p bt bh tx fee).1 = .error e →
       (get_or_default (unbond t h p bt bh tx fee).2.2 tx.from_staked_account).nonce
         = (get_or_default h tx.from_staked_account).nonce) := by
  refine ⟨?_, ?_, ?_, ?_, ?_, ?_, ?_, ?_, ?_⟩
  · intro t h bt age recent attest tx hn
    simp [node_join, hn]
  · intro t h bt tx hn
    simp [unjail, hn]
  · intro t h p bt bh tx fee hn
    simp [unbond, hn]
  · intro t h bt age recent attest tx hwf hok
    rcases node_join_cases t h bt age recent attest tx with ⟨⟨e, he⟩, _⟩ |
      ⟨s2, _, hh, haddr, hnonce, _⟩
    · rcases hok with ⟨r, hok⟩
      rw [hok] at he
      cases he
    · rw [hh]
      simp only [set_staking, get_or_default]
      rw [haddr, hwf, alookup_ainsert_self]
      exact hnonce
  · intro t h bt tx hwf hok
    rcases unjail_cases t h bt tx with ⟨⟨e, he⟩, _⟩ | ⟨_, _, val, hs, hh⟩
    · rw [hok] at he
      cases he
    · rw [hh]
      simp only [set_staking]
      rw [show (StakedState.inc_nonce { get_or_default h tx.address with
            node_meta := some (.CouncilNode val.unjail) }).address = tx.address from hwf]
      unfold get_or_default
      rw [alookup_ainsert_self]
      rfl
  · intro t h p bt bh tx fee hwf hok
    rcases unbond_cases t h p bt bh tx fee with ⟨⟨e, he⟩, _⟩ |
      ⟨s2, _, _, hh, haddr, hnonce⟩
    · rcases hok with ⟨r, hok⟩
      rw [hok] at he
      cases he
    · rw [hh]
      simp only [set_staking, get_or_default]
      rw [haddr, hwf, alookup_ainsert_self]
      exact hnonce
  · intro t h bt age recent attest tx e he
    rcases node_join_cases t h bt age recent attest tx with ⟨_, hst⟩ | ⟨s2, ⟨r, hok⟩, _⟩
    · have h2 : (node_join t h bt age recent attest tx).2.2 = h := congrArg Prod.snd hst
      rw [h2]
    · rw [hok] at he
      cases he
  · intro t h bt tx e he
    rcases unjail_cases t h bt tx with ⟨_, hst⟩ | ⟨hok, _⟩
    · have h2 : (unjail t h bt tx).2.2 = h := congrArg Prod.snd hst
      rw [h2]
    · rw [hok] at he
      cases he
  · intro t h p bt bh tx fee e he
    rcases unbond_cases t h p bt bh tx fee with ⟨_, hst⟩ | ⟨s2, hok, _⟩
    · have h2 : (unbond t h p bt bh tx fee).2.2 = h := congrArg Prod.snd hst
      rw [h2]
    · rw [hok] at he
      cases he

theorem c3_witness :
    (node_join ⟨[], 0⟩ [] 0 0 0 (.ok 0) ⟨1, 0, 0, .CouncilNode ⟨1, 0⟩⟩).1
      = .error .IncorrectNonce
    ∧ (unjail ⟨[], 0⟩ [] 0 ⟨1, 0, 0⟩).1 = .error .IncorrectNonce
    ∧ (unbond ⟨[], 0⟩ [] 0 0 0 ⟨1, 0, 4, 0⟩ 0).1 = .error .IncorrectNonce
    ∧ (get_or_default
         (node_join ⟨[], 0⟩ [] 0 0 0 (.ok 0) ⟨0, 0, 0, .CouncilNode ⟨1, 0⟩⟩).2.2 0).nonce
        = (get_or_default [] 0).nonce + 1
    ∧ (get_or_default
         (unjail ⟨[], 0⟩ [(0, ⟨0, 0, 0, 0, 0,
             some (.CouncilNode ⟨⟨1, 0⟩, some 3, some 1, some 1, []⟩)⟩)] 5 ⟨0, 0, 0⟩).2.2 0).nonce
        = (get_or_default [(0, ⟨0, 0, 0, 0, 0,
             some (.CouncilNode ⟨⟨1, 0⟩, some 3, some 1, some 1, []⟩)⟩)] 0).nonce + 1
    ∧ (get_or_default
         (unbond ⟨[], 0⟩ [(0, ⟨0, 10, 0, 0, 0, none⟩)] 7 2 1 ⟨0, 0, 4, 0⟩ 1).2.2 0).nonce
        = (get_or_default [(0, ⟨0, 10, 0, 0, 0, none⟩)] 0).nonce + 1
    ∧ (get_or_default
         (node_join ⟨[], 0⟩ [] 0 0 0 (.ok 0) ⟨1, 0, 0, .CouncilNode ⟨1, 0⟩⟩).2.2 0).nonce
        = (get_or_default [] 0).nonce
    ∧ (get_or_default (unjail ⟨[], 0⟩ [] 0 ⟨1, 0, 0⟩).2.2 0).nonce
        = (get_or_default [] 0).nonce
    ∧ (get_or_default (unbond ⟨[], 0⟩ [] 0 0 0 ⟨1, 0, 4, 0⟩ 0).2.2 0).nonce
        = (get_or_default [] 0).nonce :=
  ⟨c3_nonce_policy.1 ⟨[], 0⟩ [] 0 0 0 (.ok 0) ⟨1, 0, 0, .CouncilNode ⟨1, 0⟩⟩ (by decide),
   c3_nonce_policy.2.1 ⟨[], 0⟩ [] 0 ⟨1, 0, 0⟩ (by decide),
   c3_nonce_policy.2.2.1 ⟨[], 0⟩ [] 0 0 0 ⟨1, 0, 4, 0⟩ 0 (by decide),
   c3_nonce_policy.2.2.2.1 ⟨[], 0⟩ [] 0 0 0 (.ok 0) ⟨0, 0, 0, .CouncilNode ⟨1, 0⟩⟩
     (by decide) ⟨0, rfl⟩,
   c3_nonce_policy.2.2.2.2.1 ⟨[], 0⟩ [(0, ⟨0, 0, 0, 0, 0,
       some (.CouncilNode ⟨⟨1, 0⟩, some 3, some 1, some 1, []⟩)⟩)] 5 ⟨0, 0, 0⟩
     (by decide) rfl,
   c3_nonce_policy.2.2.2.2.2.1 ⟨[], 0⟩ [(0, ⟨0, 10, 0, 0, 0, none⟩)] 7 2 1 ⟨0, 0, 4, 0⟩ 1
     (by decide) ⟨satAdd 2 7, rfl⟩,
   c3_nonce_policy.2.2.2.2.2.2.1 ⟨[], 0⟩ [] 0 0 0 (.ok 0) ⟨1, 0, 0, .CouncilNode ⟨1, 0⟩⟩
     .IncorrectNonce rfl,
   c3_nonce_policy.2.2.2.2.2.2.2.1 ⟨[], 0⟩ [] 0 ⟨1, 0, 0⟩ .IncorrectNonce rfl,
   c3_nonce_policy.2.2.2.2.2.2.2.2 ⟨[], 0⟩ [] 0 0 0 ⟨1, 0, 4, 0⟩ 0 .IncorrectNonce rfl⟩

/-- C4: under the unbond preconditions (matching nonce, not jailed, nonzero
value, no checked-coin overflow, sufficient bonded funds) unbond succeeds:
unbonded grows by exactly value, bonded shrinks by exactly value + fee (the
fee is consumed from bonded, not credited to unbonded), unbonded_from is set
to the saturating sum block_time + unbonding_period, the nonce is bumped by
one, and that timestamp is returned. -/
theorem c4_unbond_success_effects (t : StakingTable) (h : Heap) (p bt bh : Nat)
    (tx : UnbondTx) (fee : Nat)
    (hn : tx.nonce = (get_or_default h tx.from_staked_account).nonce)
    (hj : (get_or_default h tx.from_staked_account).is_jailed = false)
    (hz : ¬ tx.value = 0)
    (hub : (get_or_default h tx.from_staked_account).unbonded + tx.value ≤ MAX_COIN)
    (hvf : tx.value + fee ≤ MAX_COIN)
    (hbd : tx.value + fee ≤ (get_or_default h tx.from_staked_account).bonded) :
    unbond t h p bt bh tx fee =
      (.ok (satAdd bt p), t,
       set_staking h
         { get_or_default h tx.from_staked_account with
           nonce := (get_or_default h tx.from_staked_account).nonce + 1
           bonded := (get_or_default h tx.from_staked_account).bonded - (tx.value + fee)
           unbonded := (get_or_default h tx.from_staked_account).unbonded + tx.value
           unbonded_from := satAdd bt p }
         t.minimal_required_staking) := by
  have e1 : coinAdd (get_or_default h tx.from_staked_account).unbonded tx.value
      = some ((get_or_default h tx.from_staked_account).unbonded + tx.value) := by
    unfold coinAdd
    rw [if_pos hub]
  have e2 : coinAdd tx.value fee = some (tx.value + fee) := by
    unfold coinAdd
    rw [if_pos hvf]
  have e3 : sub_bonded bt bh (tx.value + fee) (get_or_default h tx.from_staked_account)
      = some { get_or_default h tx.from_staked_account with
               bonded := (get_or_default h tx.from_staked_account).bonded - (tx.value + fee) } := by
    unfold sub_bonded coinSub
    rw [if_pos hbd]
  simp only [unbond, e1, e2, e3]
  rw [if_neg (not_ne_iff.mpr hn), if_neg (by simp [hj]), if_neg hz]
  rfl

theorem c4_witness :
    unbond ⟨[], 0⟩ [(0, ⟨0, 10, 0, 0, 0, none⟩)] 7 2 1 ⟨0, 0, 4, 0⟩ 1
      = (.ok 9, ⟨[], 0⟩, [(0, ⟨1, 5, 4, 9, 0, none⟩)]) :=
  c4_unbond_success_effects ⟨[], 0⟩ [(0, ⟨0, 10, 0, 0, 0, none⟩)] 7 2 1 ⟨0, 0, 4, 0⟩ 1
    (by decide) (by decide) (by decide) (by decide) (by decide) (by decide)

/-- C9: deposit on a non-jailed account whose bonded balance plus the amount
stays within the supply bound succeeds and changes only the bonded balance
(by exactly the amount); nonce, unbonded, unbonded_from and node_meta are
untouched — deposit has no nonce and never increments it. -/
theorem c9_deposit_frame (t : StakingTable) (h : Heap) (addr amount : Nat)
    (hwf : (get_or_default h addr).address = addr)
    (hj : (get_or_default h addr).is_jailed = false)
    (hov : (get_or_default h addr).bonded + amount ≤ MAX_COIN) :
    (deposit t h addr amount).1 = .ok ()
    ∧ (deposit t h addr amount).2.1 = t
    ∧ (get_or_default (deposit t h addr amount).2.2 addr).bonded
        = (get_or_default h addr).bonded + amount
    ∧ (get_or_default (deposit t h addr amount).2.2 addr).nonce
        = (get_or_default h addr).nonce
    ∧ (get_or_default (deposit t h addr amount).2.2 addr).unbonded
        = (get_or_default h addr).unbonded
    ∧ (get_or_default (deposit t h addr amount).2.2 addr).unbonded_from
        = (get_or_default h addr).unbonded_from
    ∧ (get_or_default (deposit t h addr amount).2.2 addr).node_meta
        = (get_or_default h addr).node_meta := by
  have e1 : add_bonded amount (get_or_default h addr)
      = some { get_or_default h addr with
               bonded := (get_or_default h addr).bonded + amount } := by
    unfold add_bonded coinAdd
    rw [if_pos hov]
  have hd : deposit t h addr amount
      = (.ok (), t,
         set_staking h
           { get_or_default h addr with
             bonded := (get_or_default h addr).bonded + amount }
           t.minimal_required_staking) := by
    simp only [deposit, e1]
    rw [if_neg (by simp [hj])]
  rw [hd]
  refine ⟨rfl, rfl, ?_, ?_, ?_, ?_, ?_⟩ <;>
    (simp only [set_staking]
     rw [show ({ get_or_default h addr with
           bonded := (get_or_default h addr).bonded + amount } : StakedState).address
         = addr from hwf]
     unfold get_or_default
     rw [alookup_ainsert_self])

theorem c9_witness :
    (deposit ⟨[], 0⟩ [] 0 7).1 = .ok ()
    ∧ (deposit ⟨[], 0⟩ [] 0 7).2.1 = ⟨[], 0⟩
    ∧ (get_or_default (deposit ⟨[], 0⟩ [] 0 7).2.2 0).bonded
        = (get_or_default [] 0).bonded + 7
    ∧ (get_or_default (deposit ⟨[], 0⟩ [] 0 7).2.2 0).nonce
        = (get_or_default [] 0).nonce
    ∧ (get_or_default (deposit ⟨[], 0⟩ [] 0 7).2.2 0).unbonded
        = (get_or_default [] 0).unbonded
    ∧ (get_or_default (deposit ⟨[], 0⟩ [] 0 7).2.2 0).unbonded_from
        = (get_or_default [] 0).unbonded_from
    ∧ (get_or_default (deposit ⟨[], 0⟩ [] 0 7).2.2 0).node_meta
        = (get_or_default [] 0).node_meta :=
  c9_deposit_frame ⟨[], 0⟩ [] 0 7 (by decide) (by decide) (by decide)

/-- C10: withdrawing amount 0 for an address with no stored record succeeds
at any block time (the default unbonded_from is 0): unbonded stays 0, the
nonce goes from 0 to 1, and a record is persisted for the previously absent
account. -/
theorem c10_withdraw_absent_zero (t : StakingTable) (h : Heap) (bt addr : Nat)
    (habs : alookup h addr = none) :
    withdraw t h bt addr 0 = (.ok (), t, ainsert h addr ⟨1, 0, 0, 0, addr, none⟩)
    ∧ alookup (withdraw t h bt addr 0).2.2 addr = some ⟨1, 0, 0, 0, addr, none⟩ := by
  have hs : get_or_default h addr = StakedState.default addr := by
    unfold get_or_default
    rw [habs]
  have hw : withdraw t h bt addr 0
      = (.ok (), t, ainsert h addr ⟨1, 0, 0, 0, addr, none⟩) := by
    simp only [withdraw, hs]
    rw [if_neg (by simp [StakedState.default, StakedState.is_jailed]),
        if_neg (by simp [StakedState.default]),
        if_neg (by simp [StakedState.default])]
    rfl
  exact ⟨hw, by rw [hw]; exact alookup_ainsert_self h addr _⟩

theorem c10_witness :
    withdraw ⟨[], 0⟩ [] 5 0 0 = (.ok (), ⟨[], 0⟩, ainsert [] 0 ⟨1, 0, 0, 0, 0, none⟩)
    ∧ alookup (withdraw ⟨[], 0⟩ [] 5 0 0).2.2 0 = some ⟨1, 0, 0, 0, 0, none⟩ :=
  c10_withdraw_absent_zero ⟨[], 0⟩ [] 5 0 rfl

/-- C7 counterexample: for amount 0 the claim fails — a first withdraw of 0
succeeds and a second withdraw of the same amount 0 at a later block time
succeeds as well (unbonded is 0, which still equals the declared amount),
instead of being rejected. -/
theorem c7_counterexample :
    (withdraw ⟨[], 0⟩ [] 0 0 0).1 = .ok ()
    ∧ (withdraw (withdraw ⟨[], 0⟩ [] 0 0 0).2.1
         (withdraw ⟨[], 0⟩ [] 0 0 0).2.2 5 0 0).1 = .ok () :=
  ⟨rfl, rfl⟩

/-- C7 (amended): for every account and every nonzero amount, if a first
withdraw of that amount succeeds then a second withdraw of the same amount
at any later block time is rejected with the amount/actual-unbonded mismatch
reason, the actual unbonded being 0 after the first call. -/
theorem c7_withdraw_twice_amended (t : StakingTable) (h : Heap)
    (bt1 bt2 addr amount : Nat)
    (hwf : (get_or_default h addr).address = addr)
    (hnz : amount ≠ 0)
    (hok : (withdraw t h bt1 addr amount).1 = .ok ())
    (hbt : bt1 ≤ bt2) :
    (withdraw (withdraw t h bt1 addr amount).2.1
       (withdraw t h bt1 addr amount).2.2 bt2 addr amount).1
      = .error (.UnbondedSanityCheck 0 amount) := by
  rcases withdraw_cases t h bt1 addr amount with ⟨⟨e, he⟩, _⟩ | ⟨_, ht, hj, hfrom, hamt, hh⟩
  · rw [hok] at he
    cases he
  · rw [hh]
    have hR : get_or_default
        (set_staking h (StakedState.inc_nonce { get_or_default h addr with unbonded := 0 })
          t.minimal_required_staking) addr
        = StakedState.inc_nonce { get_or_default h addr with unbonded := 0 } := by
      simp only [set_staking]
      rw [show (StakedState.inc_nonce { get_or_default h addr with
            unbonded := 0 }).address = addr from hwf]
      unfold get_or_default
      rw [alookup_ainsert_self]
    simp only [withdraw, hR]
    rw [if_neg (by
          rw [show (StakedState.inc_nonce { get_or_default h addr with
                unbonded := 0 }).is_jailed = (get_or_default h addr).is_jailed from rfl, hj]
          simp),
        if_neg (by
          rw [show (StakedState.inc_nonce { get_or_default h addr with
                unbonded := 0 }).unbonded_from
              = (get_or_default h addr).unbonded_from from rfl]
          omega),
        if_pos (by
          rw [show (StakedState.inc_nonce { get_or_default h addr with
                unbonded := 0 }).unbonded = 0 from rfl]
          exact fun hq => hnz hq.symm)]
    rfl

theorem c7_witness :
    (withdraw (withdraw ⟨[], 0⟩ [(0, ⟨0, 0, 4, 0, 0, none⟩)] 1 0 4).2.1
       (withdraw ⟨[], 0⟩ [(0, ⟨0, 0, 4, 0, 0, none⟩)] 1 0 4).2.2 2 0 4).1
      = .error (.UnbondedSanityCheck 0 4) :=
  c7_withdraw_twice_amended ⟨[], 0⟩ [(0, ⟨0, 0, 4, 0, 0, none⟩)] 1 2 0 4
    (by decide) (by decide) rfl (by decide)

/-- C6: after any node_join call, successful or rejected, the account's
used-validator-address history still has length at most 10. -/
theorem c6_rotation_bounded (t : StakingTable) (h : Heap) (bt age recent : Nat)
    (attest : AttestOutcome) (tx : NodeJoinRequestTx)
    (hwf : (get_or_default h tx.address).address = tx.address)
    (h10 : (get_or_default h tx.address).used_addr_count ≤ 10) :
    (get_or_default (node_join t h bt age recent attest tx).2.2 tx.address).used_addr_count
      ≤ 10 := by
  rcases node_join_cases t h bt age recent attest tx with ⟨_, hst⟩ |
    ⟨s2, _, hh, haddr, _, hused⟩
  · have h2 : (node_join t h bt age recent attest tx).2.2 = h := congrArg Prod.snd hst
    rw [h2]
    exact h10
  · rw [hh]
    simp only [set_staking]
    rw [haddr, hwf]
    unfold get_or_default
    rw [alookup_ainsert_self]
    exact hused h10

theorem c6_witness :
    (get_or_default
       (node_join ⟨[], 0⟩ [] 0 0 0 (.ok 0) ⟨0, 0, 0, .CouncilNode ⟨1, 0⟩⟩).2.2 0).used_addr_count
      ≤ 10 :=
  c6_rotation_bounded ⟨[], 0⟩ [] 0 0 0 (.ok 0) ⟨0, 0, 0, .CouncilNode ⟨1, 0⟩⟩
    (by decide) (by decide)

/-- C8: on success node_join returns the maximum of the freshly attested
version and the currently-tracked recent version floor, and the attested
version never influences whether the call succeeds or is rejected. -/
theorem c8_version_policy :
    (∀ t h bt age recent v (tx : NodeJoinRequestTx) r,
       (node_join t h bt age recent (.ok v) tx).1 = .ok r → r = max v recent)
    ∧ (∀ t h bt age recent v w (tx : NodeJoinRequestTx),
       (node_join t h bt age recent (.ok v) tx).1.isOk
         = (node_join t h bt age recent (.ok w) tx).1.isOk) := by
  constructor
  · intro t h bt age recent v tx r hok
    revert hok
    simp only [node_join]
    by_cases h1 : tx.nonce ≠ (get_or_default h tx.address).nonce
    · simp [h1]
    · simp only [if_neg h1]
      by_cases h2 : (get_or_default h tx.address).bonded < t.minimal_required_staking
      · simp [h2]
      · simp only [if_neg h2]
        rcases hc : node_join_core t h bt age tx (get_or_default h tx.address) with ⟨cr, t2, h2s⟩
        cases cr with
        | error e => simp [hc]
        | ok u =>
          simp only [hc]
          intro hok
          injection hok with hr
          rw [← hr]
          by_cases hv : v > recent
          · rw [if_pos hv, Nat.max_eq_left (le_of_lt hv)]
          · rw [if_neg hv, Nat.max_eq_right (Nat.le_of_not_lt hv)]
  · intro t h bt age recent v w tx
    simp only [node_join]
    by_cases h1 : tx.nonce ≠ (get_or_default h tx.address).nonce
    · simp [h1]
    · simp only [if_neg h1]
      by_cases h2 : (get_or_default h tx.address).bonded < t.minimal_required_staking
      · simp [h2]
      · simp only [if_neg h2]
        rcases hc : node_join_core t h bt age tx (get_or_default h tx.address) with ⟨cr, t2, h2s⟩
        cases cr <;> simp [hc, Except.isOk, Except.toBool]

theorem c8_witness :
    (3 : Nat) = max 3 1
    ∧ (node_join ⟨[], 0⟩ [] 0 0 1 (.ok 3) ⟨0, 0, 0, .CouncilNode ⟨1, 0⟩⟩).1.isOk
        = (node_join ⟨[], 0⟩ [] 0 0 1 (.ok 0) ⟨0, 0, 0, .CouncilNode ⟨1, 0⟩⟩).1.isOk :=
  ⟨c8_version_policy.1 ⟨[], 0⟩ [] 0 0 1 3 ⟨0, 0, 0, .CouncilNode ⟨1, 0⟩⟩ 3 rfl,
   c8_version_policy.2 ⟨[], 0⟩ [] 0 0 1 3 0 ⟨0, 0, 0, .CouncilNode ⟨1, 0⟩⟩⟩

/-- C1 counterexample: a concrete inactive council-node account (address 0,
stored consensus address 2, inactive, not jailed) rejoining with consensus
address 1 while the live index maps address 1 to account 0 itself — the
index entry is owned by the rejoining account, yet node_join rejects with
DuplicateValidatorAddress, contradicting the claim that the rejection does
not occur in that case. -/
theorem c1_counterexample :
    alookup (StakingTable.mk [(1, 0)] 0).idx_validator_address 1
      = some (0 : Nat)
    ∧ (get_or_default
         [(0, ⟨0, 0, 0, 0, 0, some (.CouncilNode ⟨⟨2, 0⟩, none, some 5, some 1, [(1, 3)]⟩)⟩)]
         0).node_meta
        = some (.CouncilNode ⟨⟨2, 0⟩, none, some 5, some 1, [(1, 3)]⟩)
    ∧ (Validator.mk ⟨2, 0⟩ none (some 5) (some 1) [(1, 3)]).is_active = false
    ∧ (Validator.mk ⟨2, 0⟩ none (some 5) (some 1) [(1, 3)]).is_jailed = false
    ∧ (Validator.mk ⟨2, 0⟩ none (some 5) (some 1) [(1, 3)]).validator_address
        ≠ validatorAddressOf 1
    ∧ (node_join ⟨[(1, 0)], 0⟩
         [(0, ⟨0, 0, 0, 0, 0, some (.CouncilNode ⟨⟨2, 0⟩, none, some 5, some 1, [(1, 3)]⟩)⟩)]
         10 100 0 (.ok 0) ⟨0, 0, 0, .CouncilNode ⟨1, 0⟩⟩).1
        = .error (.NodeJoin .DuplicateValidatorAddress) :=
  ⟨rfl, rfl, rfl, rfl, by decide, rfl⟩

/-- C1 (amended): for an inactive council-node account rejoining with a
consensus address that differs from the stored one (all earlier checks
passing), node_join rejects with DuplicateValidatorAddress exactly when that
address is present in the live index at all — regardless of whether its
owner is a different account or the rejoining account itself. -/
theorem c1_duplicate_check_amended (t : StakingTable) (h : Heap)
    (bt age recent v : Nat) (tx : NodeJoinRequestTx) (cm : CouncilNodeMeta)
    (val : Validator)
    (htx : tx.node_meta = .CouncilNode cm)
    (hs : (get_or_default h tx.address).node_meta = some (.CouncilNode val))
    (hn : tx.nonce = (get_or_default h tx.address).nonce)
    (hb : ¬ (get_or_default h tx.address).bonded < t.minimal_required_staking)
    (hj : val.is_jailed = false)
    (ha : val.is_active = false)
    (hd : val.validator_address ≠ validatorAddressOf cm.consensus_pubkey) :
    (node_join t h bt age recent (.ok v) tx).1
        = .error (.NodeJoin .DuplicateValidatorAddress)
      ↔ (alookup t.idx_validator_address (validatorAddressOf cm.consensus_pubkey)).isSome
          = true := by
  simp only [node_join, node_join_core, htx, hs]
  rw [if_neg (not_ne_iff.mpr hn), if_neg hb,
      if_neg (by simp [hj]), if_neg (by simp [ha]), if_pos hd]
  by_cases hdup : (alookup t.idx_validator_address (validatorAddressOf cm.consensus_pubkey)).isSome
  · simp [hdup]
  · simp only [hdup, if_false]
    rcases hr : add_old_val_addr val.used_validator_addresses bt
        val.validator_address MAX_USED_VALIDATOR_ADDR age with _ | ⟨used2, out⟩
    · simp [hr, hdup]
    · simp [hr, hdup]

theorem c1_witness :
    ((node_join ⟨[(1, 5)], 0⟩
        [(0, ⟨0, 0, 0, 0, 0, some (.CouncilNode ⟨⟨2, 0⟩, none, some 5, some 1, []⟩)⟩)]
        10 100 0 (.ok 0) ⟨0, 0, 0, .CouncilNode ⟨1, 0⟩⟩).1
       = .error (.NodeJoin .DuplicateValidatorAddress)
      ↔ (alookup (StakingTable.mk [(1, 5)] 0).idx_validator_address
           (validatorAddressOf 1)).isSome = true) :=
  c1_duplicate_check_amended ⟨[(1, 5)], 0⟩
    [(0, ⟨0, 0, 0, 0, 0, some (.CouncilNode ⟨⟨2, 0⟩, none, some 5, some 1, []⟩)⟩)]
    10 100 0 0 ⟨0, 0, 0, .CouncilNode ⟨1, 0⟩⟩ ⟨1, 0⟩
    ⟨⟨2, 0⟩, none, some 5, some 1, []⟩
    rfl rfl rfl (by decide) rfl rfl (by decide)

/-- C5: the address-rotation algorithm succeeds exactly when the count of
live entries (saturating timestamp + age strictly beyond block time) is
below the bound 10; on success the new list is the live entries with
(old_address, block_time) appended and the returned eviction set is exactly
the expired addresses; on failure node_join rejects with
UsedValidatorAddrFull leaving table and store untouched. -/
theorem c5_rotation_algorithm :
    (∀ (used : List (Nat × Nat)) (bt old age : Nat),
       add_old_val_addr used bt old MAX_USED_VALIDATOR_ADDR age ≠ none
         ↔ (used.filter (fun q => decide (bt < satAdd q.2 age))).length < 10)
    ∧ (∀ (used : List (Nat × Nat)) (bt old age : Nat) used2 out,
       add_old_val_addr used bt old MAX_USED_VALIDATOR_ADDR age = some (used2, out) →
       used2 = used.filter (fun q => decide (bt < satAdd q.2 age)) ++ [(old, bt)]
       ∧ out = (used.filter (fun q => decide (satAdd q.2 age ≤ bt))).map Prod.fst)
    ∧ (∀ t h bt age recent v (tx : NodeJoinRequestTx) cm val,
       tx.node_meta = .CouncilNode cm →
       (get_or_default h tx.address).node_meta = some (.CouncilNode val) →
       tx.nonce = (get_or_default h tx.address).nonce →
       ¬ (get_or_default h tx.address).bonded < t.minimal_required_staking →
       val.is_jailed = false →
       val.is_active = false →
       val.validator_address ≠ validatorAddressOf cm.consensus_pubkey →
       (alookup t.idx_validator_address (validatorAddressOf cm.consensus_pubkey)).isSome
           = false →
       add_old_val_addr val.used_validator_addresses bt val.validator_address
           MAX_USED_VALIDATOR_ADDR age = none →
       node_join t h bt age recent (.ok v) tx
         = (.error (.NodeJoin .UsedValidatorAddrFull), t, h)) := by
  refine ⟨?_, ?_, ?_⟩
  · intro used bt old age
    rw [add_old_val_addr_eq]
    simp only [MAX_USED_VALIDATOR_ADDR]
    split
    · rename_i hl
      simp [hl]
    · rename_i hl
      simp [hl]
  · intro used bt old age used2 out hr
    rw [add_old_val_addr_eq] at hr
    split at hr
    · simp only [Option.some.injEq, Prod.mk.injEq] at hr
      exact ⟨hr.1.symm, hr.2.symm⟩
    · cases hr
  · intro t h bt age recent v tx cm val htx hs hn hb hj ha hd hdup hr
    simp only [node_join, node_join_core, htx, hs]
    rw [if_neg (not_ne_iff.mpr hn), if_neg hb,
        if_neg (by simp [hj]), if_neg (by simp [ha]), if_pos hd]
    simp only [hdup, hr]
    simp

theorem c5_witness :
    ((add_old_val_addr [] 0 5 MAX_USED_VALIDATOR_ADDR 0 ≠ none)
      ↔ (([] : List (Nat × Nat)).filter
           (fun q => decide (0 < satAdd q.2 0))).length < 10)
    ∧ (([(7, 100)] : List (Nat × Nat))
         = ([(2, 0)] : List (Nat × Nat)).filter (fun q => decide (100 < satAdd q.2 1))
             ++ [(7, 100)]
       ∧ ([2] : List Nat)
         = (([(2, 0)] : List (Nat × Nat)).filter
             (fun q => decide (satAdd q.2 1 ≤ 100))).map Prod.fst)
    ∧ node_join ⟨[], 0⟩
        [(0, ⟨0, 0, 0, 0, 0, some (.CouncilNode ⟨⟨20, 0⟩, none, some 1, some 1,
           [(2, 5), (3, 5), (4, 5), (5, 5), (6, 5), (7, 5), (8, 5), (9, 5), (10, 5),
            (11, 5)]⟩)⟩)]
        10 100 0 (.ok 0) ⟨0, 0, 0, .CouncilNode ⟨21, 0⟩⟩
      = (.error (.NodeJoin .UsedValidatorAddrFull), ⟨[], 0⟩,
         [(0, ⟨0, 0, 0, 0, 0, some (.CouncilNode ⟨⟨20, 0⟩, none, some 1, some 1,
           [(2, 5), (3, 5), (4, 5), (5, 5), (6, 5), (7, 5), (8, 5), (9, 5), (10, 5),
            (11, 5)]⟩)⟩)]) :=
  ⟨c5_rotation_algorithm.1 [] 0 5 0,
   c5_rotation_algorithm.2.1 [(2, 0)] 100 7 1 [(7, 100)] [2] rfl,
   c5_rotation_algorithm.2.2 ⟨[], 0⟩
     [(0, ⟨0, 0, 0, 0, 0, some (.CouncilNode ⟨⟨20, 0⟩, none, some 1, some 1,
        [(2, 5), (3, 5), (4, 5), (5, 5), (6, 5), (7, 5), (8, 5), (9, 5), (10, 5),
         (11, 5)]⟩)⟩)]
     10 100 0 0 ⟨0, 0, 0, .CouncilNode ⟨21, 0⟩⟩ ⟨21, 0⟩
     ⟨⟨20, 0⟩, none, some 1, some 1,
      [(2, 5), (3, 5), (4, 5), (5, 5), (6, 5), (7, 5), (8, 5), (9, 5), (10, 5), (11, 5)]⟩
     rfl rfl rfl (by decide) rfl rfl (by decide) rfl rfl⟩
